import Mathlib

/-!
Shallow embedding of the golpa linear-programming wrapper (github.com/costela/golpa).

The repository wraps two foreign LP solver engines:
* the current `golpa` package (src/log.go, src/context.go, src/unnamed/part_000)
  wraps lp_solve (`lprec`-based calls such as `add_constraintex`, `set_bounds`);
* the historical `golp` package (src/golp/golp.go) wraps GLPK
  (`glp_set_col_bnds`, `glp_set_row_bnds`, ...).

Host-side Go code is translated function by function.  The foreign solver
itself is out of scope of the repository (an external collaborator); its
operations are modelled from the spec's interface contract as a store:
setters record values in an explicit problem state, getters read them back.
Go `float64` values are modelled by `GoFloat`: a rational for finite values
plus the two infinities (lp_solve's 1e30 "infinite" sentinel is identified
with the infinite values; NaN does not occur in the specified domain).
-/

namespace Golpa

/-- Extended reals modelling the Go `float64` bound values: both infinities
and finite values (as rationals). -/
inductive GoFloat where
  | negInf : GoFloat
  | fin : ℚ → GoFloat
  | posInf : GoFloat
deriving DecidableEq, Repr

/-- `math.IsInf(x, 0)`: true for an infinity of either sign. -/
def GoFloat.isInf : GoFloat → Bool
  | .fin _ => false
  | _ => true

/-- Go `VariableType` enumeration (src/unnamed/part_000 lines 35-41). -/
inductive VariableType where
  | continuousVariable : VariableType
  | integerVariable : VariableType
  | binaryVariable : VariableType
deriving DecidableEq, Repr

/-- Modelled from the spec: one solver column.  The spec's §6 interface
exposes per-column name, bound values, kind and objective coefficient. -/
structure ColState where
  cname : String
  lower : GoFloat
  upper : GoFloat
  kind : VariableType
  objCoef : GoFloat
deriving DecidableEq, Repr

/-- lp_solve row comparison operators (`C.LE`, `C.GE`, `C.EQ`). -/
inductive ConType where
  | le : ConType
  | ge : ConType
  | eq : ConType
deriving DecidableEq, Repr

/-- Modelled from the spec: one solver constraint row, as loaded by
`add_constraintex`: a comparison operator, a right-hand side and the sparse
`(colno, value)` entries (1-based column numbers). -/
structure RowState where
  ctype : ConType
  rhs : GoFloat
  entries : List (Nat × GoFloat)
deriving DecidableEq, Repr

/-- Go `Variable`: a `(model reference, index)` pair.  The model reference
is passed explicitly to every operation, so only the index is stored. -/
structure GoVariable where
  index : Nat
deriving DecidableEq, Repr

/-- Modelled from the spec: the foreign problem state (`*C.lprec`) together
with the host-side `vars` slice of the Go `Model` struct (src/log.go 106-111). -/
structure LPModel where
  pname : String
  maximize : Bool
  cols : List ColState
  rows : List RowState
  vars : List GoVariable
deriving DecidableEq, Repr

/-- Update the `i`-th element of a list (0-based), identity out of range. -/
def listUpd {α : Type} : List α → Nat → (α → α) → List α
  | [], _, _ => []
  | x :: xs, 0, f => f x :: xs
  | x :: xs, n + 1, f => x :: listUpd xs n f

/-- Read the `i`-th element of a list (0-based), default out of range. -/
def listGetD {α : Type} : List α → Nat → α → α
  | [], _, d => d
  | x :: _, 0, _ => x
  | _ :: xs, n + 1, d => listGetD xs n d

/-- Default state of a freshly added lp_solve column: bounds `[0, +inf)`,
continuous, objective coefficient 0, empty name. -/
def defaultCol : ColState :=
  { cname := "", lower := .fin 0, upper := .posInf,
    kind := .continuousVariable, objCoef := .fin 0 }

/-- Read the column addressed by 1-based column number `colnr`. -/
def colAt (m : LPModel) (colnr : Nat) : ColState :=
  listGetD m.cols (colnr - 1) defaultCol

/-- Apply `f` to the column addressed by 1-based column number `colnr`. -/
def updColAt (m : LPModel) (colnr : Nat) (f : ColState → ColState) : LPModel :=
  { m with cols := listUpd m.cols (colnr - 1) f }

/-- Modelled from the spec: `C.add_columnex(prob, 0, nil, nil)` appends one
fresh column (the new variable participates in no existing constraint). -/
def lp_add_columnex (m : LPModel) : LPModel :=
  { m with cols := m.cols ++ [defaultCol] }

/-- Modelled from the spec: `C.set_col_name`. -/
def lp_set_col_name (m : LPModel) (colnr : Nat) (nm : String) : LPModel :=
  updColAt m colnr (fun c => { c with cname := nm })

/-- Modelled from the spec: `C.set_int` marks a column integer (true) or
continuous (false). -/
def lp_set_int (m : LPModel) (colnr : Nat) (b : Bool) : LPModel :=
  updColAt m colnr (fun c =>
    { c with kind := if b then .integerVariable else .continuousVariable })

/-- Modelled from the spec: `C.set_binary` marks a column binary and fixes
its bounds to `[0, 1]` (spec §3: a Binary variable's bounds are fixed to
`[0,1]`; §4.2: bounds forced to `[0,1]`). -/
def lp_set_binary (m : LPModel) (colnr : Nat) (b : Bool) : LPModel :=
  if b then
    updColAt m colnr (fun c =>
      { c with kind := .binaryVariable, lower := .fin 0, upper := .fin 1 })
  else
    updColAt m colnr (fun c => { c with kind := .integerVariable })

/-- Modelled from the spec: `C.set_unbounded` sets the column bounds to
`(-inf, +inf)`. -/
def lp_set_unbounded (m : LPModel) (colnr : Nat) : LPModel :=
  updColAt m colnr (fun c => { c with lower := .negInf, upper := .posInf })

/-- Modelled from the spec: `C.set_upbo`. -/
def lp_set_upbo (m : LPModel) (colnr : Nat) (v : GoFloat) : LPModel :=
  updColAt m colnr (fun c => { c with upper := v })

/-- Modelled from the spec: `C.set_lowbo`. -/
def lp_set_lowbo (m : LPModel) (colnr : Nat) (v : GoFloat) : LPModel :=
  updColAt m colnr (fun c => { c with lower := v })

/-- Modelled from the spec: `C.set_bounds` sets both column bounds. -/
def lp_set_bounds (m : LPModel) (colnr : Nat) (lo hi : GoFloat) : LPModel :=
  updColAt m colnr (fun c => { c with lower := lo, upper := hi })

/-- Modelled from the spec: `C.set_mat(prob, 0, colnr, v)` — row 0 is the
objective row, so this stores the objective coefficient of `colnr`. -/
def lp_set_mat0 (m : LPModel) (colnr : Nat) (v : GoFloat) : LPModel :=
  updColAt m colnr (fun c => { c with objCoef := v })

/-- Modelled from the spec: `C.get_mat(prob, 0, colnr)`. -/
def lp_get_mat0 (m : LPModel) (colnr : Nat) : GoFloat :=
  (colAt m colnr).objCoef

/-- Modelled from the spec: `C.get_lowbo`. -/
def lp_get_lowbo (m : LPModel) (colnr : Nat) : GoFloat :=
  (colAt m colnr).lower

/-- Modelled from the spec: `C.get_upbo`. -/
def lp_get_upbo (m : LPModel) (colnr : Nat) : GoFloat :=
  (colAt m colnr).upper

/-- Modelled from the spec: `C.is_binary`. -/
def lp_is_binary (m : LPModel) (colnr : Nat) : Bool :=
  (colAt m colnr).kind = .binaryVariable

/-- Modelled from the spec: `C.is_int`. -/
def lp_is_int (m : LPModel) (colnr : Nat) : Bool :=
  (colAt m colnr).kind = .integerVariable

/-- Modelled from the spec: `C.get_Ncolumns`. -/
def lp_get_Ncolumns (m : LPModel) : Nat := m.cols.length

/-- Modelled from the spec: `C.get_Nrows`. -/
def lp_get_Nrows (m : LPModel) : Nat := m.rows.length

/-- Modelled from the spec: `C.add_constraintex` appends one constraint row
built from the sparse entries, comparison operator and right-hand side. -/
def lp_add_constraintex (m : LPModel) (entries : List (Nat × GoFloat))
    (ctype : ConType) (rhs : GoFloat) : LPModel :=
  { m with rows := m.rows ++ [{ ctype := ctype, rhs := rhs, entries := entries }] }

/-! ### Host-side wrapper functions of the `golpa` package (lp_solve backend),
translated from src/log.go and src/unnamed/part_000. -/

/-- `NewModel` (src/log.go 125-148): `make_lp(0, 0)`, set name and direction;
the host `vars` slice starts empty. -/
def Model_NewModel (name : String) (maximize : Bool) : LPModel :=
  { pname := name, maximize := maximize, cols := [], rows := [], vars := [] }

/-- `Model.SetDirection` (src/log.go 212-217). -/
def Model_SetDirection (m : LPModel) (maximize : Bool) : LPModel :=
  { m with maximize := maximize }

/-- `Model.VariableCount` (src/log.go 233-238): `get_Ncolumns`. -/
def Model_VariableCount (m : LPModel) : Nat :=
  lp_get_Ncolumns m

/-- `Model.ConstraintCount` (src/log.go 337-342): `get_Nrows`. -/
def Model_ConstraintCount (m : LPModel) : Nat :=
  lp_get_Nrows m

/-- `Variable.SetType` (src/unnamed/part_000 57-71). -/
def Variable_SetType (m : LPModel) (v : GoVariable) (vartype : VariableType) : LPModel :=
  match vartype with
  | .continuousVariable => lp_set_int m (v.index + 1) false
  | .integerVariable => lp_set_int m (v.index + 1) true
  | .binaryVariable => lp_set_binary m (v.index + 1) true

/-- `Variable.Type` (src/unnamed/part_000 74-85): `is_binary`, else `is_int`,
else continuous. -/
def Variable_Type (m : LPModel) (v : GoVariable) : VariableType :=
  if lp_is_binary m (v.index + 1) then .binaryVariable
  else if lp_is_int m (v.index + 1) then .integerVariable
  else .continuousVariable

/-- `Variable.SetBounds` (src/unnamed/part_000 92-108): four branches on
`math.IsInf` of the two bounds. -/
def Variable_SetBounds (m : LPModel) (v : GoVariable) (lower upper : GoFloat) : LPModel :=
  if lower.isInf && upper.isInf then
    lp_set_unbounded m (v.index + 1)
  else if lower.isInf then
    lp_set_upbo (lp_set_unbounded m (v.index + 1)) (v.index + 1) upper
  else if upper.isInf then
    lp_set_lowbo (lp_set_unbounded m (v.index + 1)) (v.index + 1) lower
  else
    lp_set_bounds m (v.index + 1) lower upper

/-- `Variable.Bounds` (src/unnamed/part_000 111-127): read both bounds and
replace the solver's infinite sentinel by the host infinities.  The sentinel
`±get_infinite` is modelled by the `GoFloat` infinities themselves, so the
comparisons mirror the source and the replacement is the identity. -/
def Variable_Bounds (m : LPModel) (v : GoVariable) : GoFloat × GoFloat :=
  let lower := lp_get_lowbo m (v.index + 1)
  let upper := lp_get_upbo m (v.index + 1)
  ((if lower = .negInf then .negInf else lower),
   (if upper = .posInf then .posInf else upper))

/-- `Variable.SetObjectiveCoefficient` (src/unnamed/part_000 131-136):
`set_mat(prob, 0, index+1, coef)`. -/
def Variable_SetObjectiveCoefficient (m : LPModel) (v : GoVariable) (coef : GoFloat) : LPModel :=
  lp_set_mat0 m (v.index + 1) coef

/-- `Variable.Coefficient` (src/unnamed/part_000 140-145). -/
def Variable_Coefficient (m : LPModel) (v : GoVariable) : GoFloat :=
  lp_get_mat0 m (v.index + 1)

/-- `Model.AddDefinedVariable` (src/log.go 282-318): take the current column
count as the new index, append to the host `vars` slice, add a fresh foreign
column, name it (empty names become `V<index>`), set type and objective
coefficient, and set the requested bounds unless the type is binary. -/
def Model_AddDefinedVariable (m : LPModel) (name : String) (varType : VariableType)
    (coefficient lowerBound upperBound : GoFloat) : LPModel × GoVariable :=
  let size := Model_VariableCount m
  let v : GoVariable := { index := size }
  let m1 := { m with vars := m.vars ++ [v] }
  let m2 := lp_add_columnex m1
  let nm := if name = "" then "V" ++ toString size else name
  let m3 := lp_set_col_name m2 (v.index + 1) nm
  let m4 := Variable_SetType m3 v varType
  let m5 := Variable_SetObjectiveCoefficient m4 v coefficient
  let m6 := if varType ≠ .binaryVariable then Variable_SetBounds m5 v lowerBound upperBound else m5
  (m6, v)

/-- `Model.AddVariable` (src/log.go 259-261). -/
def Model_AddVariable (m : LPModel) (name : String) : LPModel × GoVariable :=
  Model_AddDefinedVariable m name .continuousVariable (.fin 1) .negInf .posInf

/-- `Model.AddBinaryVariable` (src/log.go 266-268). -/
def Model_AddBinaryVariable (m : LPModel) (name : String) : LPModel × GoVariable :=
  Model_AddDefinedVariable m name .binaryVariable (.fin 1) (.fin 0) (.fin 1)

/-- `Model.AddIntegerVariable` (src/log.go 274-276). -/
def Model_AddIntegerVariable (m : LPModel) (name : String) : LPModel × GoVariable :=
  Model_AddDefinedVariable m name .integerVariable (.fin 1) .negInf .posInf

/-- `Model.Clone` (src/log.go 178-201): `copy_lp` duplicates the foreign
problem state; the host `vars` slice is rebuilt index-for-index with the new
model as parent (the parent pointer is implicit here, since every operation
takes the model explicitly). -/
def Model_Clone (m : LPModel) : LPModel :=
  { pname := m.pname, maximize := m.maximize, cols := m.cols, rows := m.rows,
    vars := m.vars.map (fun v => { index := v.index }) }

/-- Error values returned by the wrapper; `inconsistentLengths nVars nCoefs`
models `fmt.Errorf("inconsistent number of variables and coefficients: %d != %d",
len(vars), len(coefs))`. -/
inductive GolpaErr where
  | inconsistentLengths : Nat → Nat → GolpaErr
deriving DecidableEq, Repr

/-- `Model.AddConstraint` (src/log.go 347-374): validate the array lengths,
build the sparse row over 1-based column numbers, then switch on the bounds:
both infinite → no row; lower infinite → one `LE upper` row; upper infinite →
one `GE lower` row; `upper == lower` → one `EQ upper` row; otherwise two rows
`LE upper` and `GE lower`.  Returns the Go error value and the new state. -/
def Model_AddConstraint (m : LPModel) (lower upper : GoFloat) (vars : List GoVariable)
    (coefs : List GoFloat) : Option GolpaErr × LPModel :=
  if vars.length ≠ coefs.length then
    (some (.inconsistentLengths vars.length coefs.length), m)
  else
    let entries := (vars.zip coefs).map (fun vc => (vc.1.index + 1, vc.2))
    if lower.isInf && upper.isInf then
      (none, m)
    else if lower.isInf then
      (none, lp_add_constraintex m entries .le upper)
    else if upper.isInf then
      (none, lp_add_constraintex m entries .ge lower)
    else if upper = lower then
      (none, lp_add_constraintex m entries .eq upper)
    else
      (none, lp_add_constraintex (lp_add_constraintex m entries .le upper) entries .ge lower)

/-- Outcome of `Model.SetObjectiveFunction`: a normal return carrying the Go
error value, or a Go runtime panic (index out of range), each with the model
state at that point. -/
inductive SOFOutcome where
  | ret : Option GolpaErr → LPModel → SOFOutcome
  | panicked : LPModel → SOFOutcome
deriving DecidableEq, Repr

/-- The `for i, v := range vars` loop body of `SetObjectiveFunction`
(src/log.go 327-329): each iteration reads `coefs[i]` — panicking if `i` is
out of range for `coefs` — and sets the coefficient of `vars[i]`. -/
def setObjectiveLoop : LPModel → List GoFloat → List GoVariable → SOFOutcome
  | m, _, [] => .ret none m
  | m, [], _ :: _ => .panicked m
  | m, c :: cs, v :: vs => setObjectiveLoop (Variable_SetObjectiveCoefficient m v c) cs vs

/-- `Model.SetObjectiveFunction` (src/log.go 326-331): no validation; loops
over `vars` setting each coefficient from `coefs[i]`, then returns `nil`. -/
def Model_SetObjectiveFunction (m : LPModel) (coefs : List GoFloat)
    (vars : List GoVariable) : SOFOutcome :=
  setObjectiveLoop m coefs vars

/-! ### Solve dispatch and the status/error taxonomy (src/log.go 379-399 and
452-480).  The return codes are those of the external lp_solve engine
(`lp_lib.h`), modelled from the spec's interface contract. -/

/-- Modelled from the spec: lp_solve return code `NOMEMORY`. -/
def NOMEMORY : Int := -2
/-- Modelled from the spec: lp_solve return code `OPTIMAL`. -/
def OPTIMAL : Int := 0
/-- Modelled from the spec: lp_solve return code `SUBOPTIMAL`. -/
def SUBOPTIMAL : Int := 1
/-- Modelled from the spec: lp_solve return code `INFEASIBLE`. -/
def INFEASIBLE : Int := 2
/-- Modelled from the spec: lp_solve return code `UNBOUNDED`. -/
def UNBOUNDED : Int := 3
/-- Modelled from the spec: lp_solve return code `DEGENERATE`. -/
def DEGENERATE : Int := 4
/-- Modelled from the spec: lp_solve return code `NUMFAILURE`. -/
def NUMFAILURE : Int := 5
/-- Modelled from the spec: lp_solve return code `USERABORT`. -/
def USERABORT : Int := 6
/-- Modelled from the spec: lp_solve return code `TIMEOUT`. -/
def TIMEOUT : Int := 7
/-- Modelled from the spec: lp_solve return code `PRESOLVED`. -/
def PRESOLVED : Int := 9
/-- Modelled from the spec: lp_solve return code `PROCFAIL`. -/
def PROCFAIL : Int := 10
/-- Modelled from the spec: lp_solve return code `PROCBREAK`. -/
def PROCBREAK : Int := 11
/-- Modelled from the spec: lp_solve return code `FEASFOUND`. -/
def FEASFOUND : Int := 12
/-- Modelled from the spec: lp_solve return code `NOFEASFOUND`. -/
def NOFEASFOUND : Int := 13

/-- `SolveError` constants (src/log.go 467-480): each typed error value is
the corresponding solver return code. -/
def ErrBranchCutBreak : Int := PROCBREAK
/-- `ErrBranchCutFail = SolveError(C.PROCFAIL)` (src/log.go 469). -/
def ErrBranchCutFail : Int := PROCFAIL
/-- `ErrFeasibleFound = SolveError(C.FEASFOUND)` (src/log.go 470). -/
def ErrFeasibleFound : Int := FEASFOUND
/-- `ErrModelDegenerate = SolveError(C.DEGENERATE)` (src/log.go 471). -/
def ErrModelDegenerate : Int := DEGENERATE
/-- `ErrModelInfeasible = SolveError(C.INFEASIBLE)` (src/log.go 472). -/
def ErrModelInfeasible : Int := INFEASIBLE
/-- `ErrModelUnbounded = SolveError(C.UNBOUNDED)` (src/log.go 473). -/
def ErrModelUnbounded : Int := UNBOUNDED
/-- `ErrNoFeasibleFound = SolveError(C.NOFEASFOUND)` (src/log.go 474). -/
def ErrNoFeasibleFound : Int := NOFEASFOUND
/-- `ErrNoMemory = SolveError(C.NOMEMORY)` (src/log.go 475). -/
def ErrNoMemory : Int := NOMEMORY
/-- `ErrNumericalFailure = SolveError(C.NUMFAILURE)` (src/log.go 476). -/
def ErrNumericalFailure : Int := NUMFAILURE
/-- `ErrPresolved = SolveError(C.PRESOLVED)` (src/log.go 477). -/
def ErrPresolved : Int := PRESOLVED
/-- `ErrTimeout = SolveError(C.TIMEOUT)` (src/log.go 478). -/
def ErrTimeout : Int := TIMEOUT
/-- `ErrUserAbort = SolveError(C.USERABORT)` (src/log.go 479). -/
def ErrUserAbort : Int := USERABORT

/-- Outcome of `Model.Solve`: a `SolveResult` with the given status and a
`nil` error, a `nil` result with the given typed `SolveError`, or a Go
panic (`panic("unrecognized result")`). -/
inductive SolveOutcome where
  | success : Int → SolveOutcome
  | failure : Int → SolveOutcome
  | panics : SolveOutcome
deriving DecidableEq, Repr

/-- The `switch ret` dispatch of `Model.Solve` (src/log.go 386-398) on the
foreign `C.solve` return code: `OPTIMAL, SUBOPTIMAL` give a result with that
status and a nil error; the eleven listed failure codes give a nil result and
`SolveError(ret)`; every other code panics. -/
def Model_Solve (ret : Int) : SolveOutcome :=
  if ret = OPTIMAL ∨ ret = SUBOPTIMAL then
    .success ret
  else if ret = INFEASIBLE ∨ ret = UNBOUNDED ∨ ret = DEGENERATE ∨ ret = NUMFAILURE ∨
      ret = USERABORT ∨ ret = TIMEOUT ∨ ret = PROCFAIL ∨ ret = PROCBREAK ∨
      ret = FEASFOUND ∨ ret = NOFEASFOUND ∨ ret = NOMEMORY then
    .failure ret
  else
    .panics

/-! ### Handle registry and the cancellation protocol
(src/context.go 14-38, src/log.go 401-425). -/

/-- `ctx.Err()` values of the Go `context` package. -/
inductive CtxError where
  | canceled : CtxError
  | deadlineExceeded : CtxError
deriving DecidableEq, Repr

/-- A Go `context.Context`, observed only through `ctx.Err()`. -/
structure GoContext where
  err : Option CtxError
deriving DecidableEq, Repr

/-- A value stored in the process-wide `refs` table (`map[unsafe.Pointer]interface{}`):
the table carries cancellation contexts (from `SolveWithContext`) and model
references (from `finishInitialization`, for the log callback). -/
inductive RefVal where
  | ctxRef : GoContext → RefVal
  | modelRef : RefVal
deriving DecidableEq, Repr

/-- The process-wide handle registry of src/context.go: the `refs` map plus
a fresh-pointer counter modelling `C.malloc(1)` returning distinct addresses. -/
structure RefsState where
  nextPtr : Nat
  refs : List (Nat × RefVal)
deriving DecidableEq, Repr

/-- `saveRef` (src/context.go 19-31): allocate a fresh sentinel address,
store the value under it in the table, and return the address.  The file
defines no removal operation. -/
def saveRef (st : RefsState) (ref : RefVal) : Nat × RefsState :=
  (st.nextPtr, { nextPtr := st.nextPtr + 1, refs := st.refs ++ [(st.nextPtr, ref)] })

/-- `loadRef` (src/context.go 33-38): look the address up in the table. -/
def loadRef (st : RefsState) (ptr : Nat) : Option RefVal :=
  (st.refs.find? (fun e => e.1 = ptr)).map (fun e => e.2)

/-- `abortCallback` (src/log.go 401-409): resolve the handle; if it is a
context whose `Err()` is non-nil, return TRUE (abort), else FALSE. -/
def abortCallback (st : RefsState) (ctxPtr : Nat) : Bool :=
  match loadRef st ctxPtr with
  | some (.ctxRef ctx) => ctx.err.isSome
  | _ => false

/-- Process-wide state relevant to `SolveWithContext`: the handle registry
and the abort callback currently installed on the model's problem
(`put_abortfunc`; `none` means no callback installed). -/
structure CancelState where
  refsSt : RefsState
  abortfunc : Option Nat
deriving DecidableEq, Repr

/-- A Go error as seen by callers of `SolveWithContext`: a typed
`SolveError` or a context error. -/
inductive GoErr where
  | solveErr : Int → GoErr
  | contextErr : CtxError → GoErr
deriving DecidableEq, Repr

/-- Outcome of `Model.SolveWithContext`: a normal return carrying the
(possibly nil) result status and (possibly nil) error, or a propagated
panic from `Model.Solve`. -/
inductive SWCOutcome where
  | ret : Option Int → Option GoErr → SWCOutcome
  | panicked : SWCOutcome
deriving DecidableEq, Repr

/-- `Model.SolveWithContext` (src/log.go 414-425): register the context via
`saveRef` and install the abort callback with its handle; the deferred
`put_abortfunc(nil, nil)` clears the callback on every exit path, including
the panic path; then the result of `Solve()` is returned unchanged unless
its error is `ErrUserAbort` (`errors.Is` on the comparable `SolveError`), in
which case `ctx.Err()` is returned as the error instead.  `ret` is the
foreign `C.solve` return code observed inside `Solve()`. -/
def Model_SolveWithContext (st : CancelState) (ctx : GoContext) (ret : Int) :
    SWCOutcome × CancelState :=
  let pr := saveRef st.refsSt (.ctxRef ctx)
  let st1 : CancelState := { refsSt := pr.2, abortfunc := some pr.1 }
  let out := Model_Solve ret
  let st2 : CancelState := { st1 with abortfunc := none }
  match out with
  | .success s => (.ret (some s) none, st2)
  | .failure c =>
      if c = ErrUserAbort then
        (.ret none (ctx.err.map GoErr.contextErr), st2)
      else
        (.ret none (some (.solveErr c)), st2)
  | .panics => (.panicked, st2)

/-! ### Result accessors (src/log.go 523-555).  The solver's flat result
space (`get_var_primalresult` / `get_var_dualresult`) is modelled as a
function from the flat index to the stored value. -/

/-- Modelled from the spec: `C.get_var_primalresult` reads the flat result
space at the given index. -/
def lp_get_var_primalresult (sol : Nat → GoFloat) (i : Nat) : GoFloat :=
  sol i

/-- Modelled from the spec: `C.get_var_dualresult`. -/
def lp_get_var_dualresult (sol : Nat → GoFloat) (i : Nat) : GoFloat :=
  sol i

/-- `SolveResult.PrimalValue` (src/log.go 529-535): queries the flat result
space at `v.index + v.model.ConstraintCount() + 1`, with the constraint
count read from the model at query time. -/
def SolveResult_PrimalValue (m : LPModel) (sol : Nat → GoFloat) (v : GoVariable) : GoFloat :=
  lp_get_var_primalresult sol (v.index + Model_ConstraintCount m + 1)

/-- `SolveResult.DualValue` (src/log.go 539-545). -/
def SolveResult_DualValue (m : LPModel) (dsol : Nat → GoFloat) (v : GoVariable) : GoFloat :=
  lp_get_var_dualresult dsol (v.index + Model_ConstraintCount m + 1)

/-- `SolveResult.Value` (src/log.go 523-525): shorthand for `PrimalValue`. -/
def SolveResult_Value (m : LPModel) (sol : Nat → GoFloat) (v : GoVariable) : GoFloat :=
  SolveResult_PrimalValue m sol v

/-! ### Bound-type selection in the two backends.

The GLPK backend (src/golp/golp.go) encodes a `(lower, upper)` pair as one
of the five GLPK bound types, with the same switch in `Variable.SetBounds`
(lines 427-440) and in `Model.AddConstraint` (lines 507-518).  The lp_solve
backend (src/unnamed/part_000 92-108 for variables, src/log.go 359-371 for
constraint rows) has no such shared discriminant; the selectors below record
which branch of each switch a pair takes. -/

/-- The five GLPK bound types `GLP_FR/UP/LO/FX/DB` (src/golp/golp.go 276-284). -/
inductive GlpBoundType where
  | fr : GlpBoundType
  | up : GlpBoundType
  | lo : GlpBoundType
  | fx : GlpBoundType
  | db : GlpBoundType
deriving DecidableEq, Repr

/-- The bound type chosen by the GLPK backend `Variable.SetBounds`
(src/golp/golp.go 427-440): FR both infinite, UP lower infinite, LO upper
infinite, FX when `upper == lower`, DB otherwise. -/
def golp_SetBounds_type (lower upper : GoFloat) : GlpBoundType :=
  if lower.isInf && upper.isInf then .fr
  else if lower.isInf then .up
  else if upper.isInf then .lo
  else if upper = lower then .fx
  else .db

/-- The row bound type chosen by the GLPK backend `Model.AddConstraint`
(src/golp/golp.go 507-518): the same switch as `Variable.SetBounds`. -/
def golp_AddConstraint_rowType (lower upper : GoFloat) : GlpBoundType :=
  if lower.isInf && upper.isInf then .fr
  else if lower.isInf then .up
  else if upper.isInf then .lo
  else if upper = lower then .fx
  else .db

/-- The four branches of the lp_solve backend `Variable.SetBounds`
(src/unnamed/part_000 92-108): `set_unbounded`; `set_unbounded` then
`set_upbo`; `set_unbounded` then `set_lowbo`; `set_bounds`. -/
inductive LpSetBoundsCase where
  | unbounded : LpSetBoundsCase
  | upboOnly : LpSetBoundsCase
  | lowboOnly : LpSetBoundsCase
  | bothBounds : LpSetBoundsCase
deriving DecidableEq, Repr

/-- Which branch of the lp_solve `Variable.SetBounds` switch a pair takes:
there is no fifth branch — equal finite bounds take the same generic
`set_bounds` branch as strictly ordered finite bounds. -/
def golpa_SetBounds_case (lower upper : GoFloat) : LpSetBoundsCase :=
  if lower.isInf && upper.isInf then .unbounded
  else if lower.isInf then .upboOnly
  else if upper.isInf then .lowboOnly
  else .bothBounds

/-- The five branches of the lp_solve `Model.AddConstraint` switch
(src/log.go 359-371): no row at all; one LE row; one GE row; one EQ row;
two rows (LE then GE). -/
inductive LpAddConstraintCase where
  | noRow : LpAddConstraintCase
  | leRow : LpAddConstraintCase
  | geRow : LpAddConstraintCase
  | eqRow : LpAddConstraintCase
  | leGeRows : LpAddConstraintCase
deriving DecidableEq, Repr

/-- Which branch of the lp_solve `Model.AddConstraint` switch a pair takes. -/
def golpa_AddConstraint_case (lower upper : GoFloat) : LpAddConstraintCase :=
  if lower.isInf && upper.isInf then .noRow
  else if lower.isInf then .leRow
  else if upper.isInf then .geRow
  else if upper = lower then .eqRow
  else .leGeRows

/-! ### Helper lemmas about `listUpd` and list access. -/

theorem listUpd_length {α : Type} (l : List α) (i : Nat) (f : α → α) :
    (listUpd l i f).length = l.length := by
  induction l generalizing i with
  | nil => rfl
  | cons x xs ih =>
    cases i with
    | zero => rfl
    | succ n => simp [listUpd, ih]

theorem getD_listUpd_self {α : Type} (l : List α) (i : Nat) (f : α → α) (d : α)
    (h : i < l.length) : listGetD (listUpd l i f) i d = f (listGetD l i d) := by
  induction l generalizing i with
  | nil => simp at h
  | cons x xs ih =>
    cases i with
    | zero => rfl
    | succ n =>
      simp only [listUpd, listGetD]
      exact ih n (by simpa using h)

theorem getD_listUpd_ne {α : Type} (l : List α) (i j : Nat) (f : α → α) (d : α)
    (h : i ≠ j) : listGetD (listUpd l i f) j d = listGetD l j d := by
  induction l generalizing i j with
  | nil => rfl
  | cons x xs ih =>
    cases i with
    | zero =>
      cases j with
      | zero => exact absurd rfl h
      | succ k => rfl
    | succ n =>
      cases j with
      | zero => rfl
      | succ k =>
        simp only [listUpd, listGetD]
        exact ih n k (fun hh => h (by omega))

theorem getD_append_length {α : Type} (l : List α) (c d : α) :
    listGetD (l ++ [c]) l.length d = c := by
  induction l with
  | nil => rfl
  | cons x xs ih => simpa [listGetD] using ih

theorem getD_append_lt {α : Type} (l l2 : List α) (i : Nat) (d : α)
    (h : i < l.length) : listGetD (l ++ l2) i d = listGetD l i d := by
  induction l generalizing i with
  | nil => simp at h
  | cons x xs ih =>
    cases i with
    | zero => rfl
    | succ n =>
      simp only [List.cons_append, listGetD]
      exact ih n (by simpa using h)

/-! ### Claim C1: solve-dispatch tiers. -/

/-- C1 counterexample: the claim places Presolved in the failure tier, but
`Model.Solve`'s switch (src/log.go 388-398) does not list `C.PRESOLVED`, so
a `PRESOLVED` return code falls into the `default` branch and panics instead
of yielding the typed error `ErrPresolved`. -/
theorem solve_presolved_panics :
    Model_Solve PRESOLVED = .panics ∧ Model_Solve PRESOLVED ≠ .failure ErrPresolved := by
  decide

/-- C1 (amended): `Model.Solve` maps `OPTIMAL` and `SUBOPTIMAL` to a result
with that status and a nil error; the eleven failure codes (the claim's
failure tier without `Presolved`) to a nil result and the corresponding
typed `SolveError`; and every other code — `PRESOLVED` included — to a
panic, never a silent success. -/
theorem solve_dispatch_tiers (ret : Int) :
    ((ret = OPTIMAL ∨ ret = SUBOPTIMAL) → Model_Solve ret = .success ret) ∧
    ((ret = ErrModelInfeasible ∨ ret = ErrModelUnbounded ∨ ret = ErrModelDegenerate ∨
      ret = ErrNumericalFailure ∨ ret = ErrUserAbort ∨ ret = ErrTimeout ∨
      ret = ErrBranchCutFail ∨ ret = ErrBranchCutBreak ∨ ret = ErrFeasibleFound ∨
      ret = ErrNoFeasibleFound ∨ ret = ErrNoMemory) → Model_Solve ret = .failure ret) ∧
    (¬(ret = OPTIMAL ∨ ret = SUBOPTIMAL) →
     ¬(ret = ErrModelInfeasible ∨ ret = ErrModelUnbounded ∨ ret = ErrModelDegenerate ∨
       ret = ErrNumericalFailure ∨ ret = ErrUserAbort ∨ ret = ErrTimeout ∨
       ret = ErrBranchCutFail ∨ ret = ErrBranchCutBreak ∨ ret = ErrFeasibleFound ∨
       ret = ErrNoFeasibleFound ∨ ret = ErrNoMemory) →
     Model_Solve ret = .panics) := by
  refine ⟨?_, ?_, ?_⟩
  · intro h
    rcases h with h | h <;> subst h <;> decide
  · intro h
    rcases h with h | h | h | h | h | h | h | h | h | h | h <;> subst h <;> decide
  · intro h1 h2
    unfold Model_Solve
    rw [if_neg h1, if_neg ?_]
    intro hc
    exact h2 (by
      simpa [ErrModelInfeasible, ErrModelUnbounded, ErrModelDegenerate, ErrNumericalFailure,
        ErrUserAbort, ErrTimeout, ErrBranchCutFail, ErrBranchCutBreak, ErrFeasibleFound,
        ErrNoFeasibleFound, ErrNoMemory] using hc)

/-- C1 witness: the amended dispatch at the concrete codes `OPTIMAL`,
`USERABORT` and the unknown code 99. -/
theorem solve_dispatch_tiers_witness :
    Model_Solve OPTIMAL = .success OPTIMAL ∧
    Model_Solve USERABORT = .failure USERABORT ∧
    Model_Solve 99 = .panics :=
  ⟨(solve_dispatch_tiers OPTIMAL).1 (Or.inl rfl),
   (solve_dispatch_tiers USERABORT).2.1
     (Or.inr (Or.inr (Or.inr (Or.inr (Or.inl rfl))))),
   (solve_dispatch_tiers 99).2.2 (by decide) (by decide)⟩

/-! ### Claim C2: the bound codec. -/

/-- C2 counterexample: in the cited lp_solve backend the five-variant rule
is not applied identically by `Variable.SetBounds` and `Model.AddConstraint`.
At the equal finite pair `(2, 2)` `SetBounds` takes the same generic
`set_bounds` branch as the strictly ordered pair `(2, 3)` — it has no Fixed
variant at all — while `AddConstraint` distinguishes the two (EQ row versus
two rows); and for `(-inf, +inf)` `AddConstraint` selects no variant but
omits the row entirely. -/
theorem bound_codec_not_identical_cex :
    golpa_SetBounds_case (.fin 2) (.fin 2) = golpa_SetBounds_case (.fin 2) (.fin 3) ∧
    golpa_AddConstraint_case (.fin 2) (.fin 2) ≠ golpa_AddConstraint_case (.fin 2) (.fin 3) ∧
    golpa_AddConstraint_case .negInf .posInf = .noRow := by
  decide

/-- C2 (amended): the five-variant bound codec with Fixed taking precedence
over Double is applied identically to variable bounds and constraint row
bounds in the GLPK backend (src/golp/golp.go): both switches select the same
one of the five GLPK bound types for every extended-real pair, with equal
finite bounds giving FX and distinct finite bounds giving DB.  In the cited
lp_solve backend, `Variable.SetBounds` merges Fixed and Double into one
generic branch, and `Model.AddConstraint` omits the row entirely when both
bounds are infinite. -/
theorem glp_bound_codec_identical :
    (∀ lower upper : GoFloat,
      golp_SetBounds_type lower upper = golp_AddConstraint_rowType lower upper) ∧
    (∀ q : ℚ, golp_SetBounds_type (.fin q) (.fin q) = .fx) ∧
    (∀ q r : ℚ, q ≠ r → golp_SetBounds_type (.fin q) (.fin r) = .db) ∧
    (∀ lower upper : GoFloat, lower.isInf = true → upper.isInf = true →
      golpa_AddConstraint_case lower upper = .noRow) ∧
    (∀ q r : ℚ, golpa_SetBounds_case (.fin q) (.fin r) = .bothBounds) := by
  refine ⟨fun lower upper => rfl, fun q => by simp [golp_SetBounds_type, GoFloat.isInf],
    ?_, ?_, fun q r => by simp [golpa_SetBounds_case, GoFloat.isInf]⟩
  · intro q r h
    simp [golp_SetBounds_type, GoFloat.isInf, Ne.symm h]
  · intro lower upper h1 h2
    simp [golpa_AddConstraint_case, h1, h2]

/-- C2 witness: the amended codec agreement at concrete pairs. -/
theorem glp_bound_codec_identical_witness :
    golp_SetBounds_type (.fin 5) (.fin 5) = golp_AddConstraint_rowType (.fin 5) (.fin 5) ∧
    golp_SetBounds_type (.fin 5) (.fin 5) = .fx ∧
    golp_SetBounds_type (.fin 1) (.fin 2) = .db ∧
    golpa_AddConstraint_case .negInf .posInf = .noRow ∧
    golpa_SetBounds_case (.fin 1) (.fin 2) = .bothBounds :=
  ⟨glp_bound_codec_identical.1 (.fin 5) (.fin 5),
   glp_bound_codec_identical.2.1 5,
   glp_bound_codec_identical.2.2.1 1 2 (by norm_num),
   glp_bound_codec_identical.2.2.2.1 .negInf .posInf rfl rfl,
   glp_bound_codec_identical.2.2.2.2 1 2⟩

/-! ### Claim C6: `AddConstraint` arity validation. -/

/-- C6: with mismatched array lengths `Model.AddConstraint` returns the
local validation error naming both arities and returns the model state
unchanged — no row is appended and no foreign call is reflected in the
state. -/
theorem addConstraint_length_validation (m : LPModel) (lower upper : GoFloat)
    (vars : List GoVariable) (coefs : List GoFloat)
    (h : vars.length ≠ coefs.length) :
    Model_AddConstraint m lower upper vars coefs =
      (some (.inconsistentLengths vars.length coefs.length), m) := by
  simp [Model_AddConstraint, h]

/-- C6 witness: one variable against zero coefficients. -/
theorem addConstraint_length_validation_witness :
    Model_AddConstraint (Model_NewModel "w" true) (.fin 0) (.fin 1) [⟨0⟩] [] =
      (some (.inconsistentLengths 1 0), Model_NewModel "w" true) :=
  addConstraint_length_validation (Model_NewModel "w" true) (.fin 0) (.fin 1) [⟨0⟩] []
    (by decide)

/-! ### Claim C10: row-count delta of `AddConstraint`. -/

/-- C10: with equal-length arrays `Model.AddConstraint` returns nil and
changes `ConstraintCount()` by 0 when both bounds are infinite (the state is
untouched, not given an inert row), by 1 when exactly one bound is finite or
when both are finite and equal, and by 2 when both are finite with
`lower < upper` — the range becoming two rows, `LE upper` then `GE lower`. -/
theorem addConstraint_row_delta (m : LPModel) (lower upper : GoFloat)
    (vars : List GoVariable) (coefs : List GoFloat)
    (h : vars.length = coefs.length) :
    (Model_AddConstraint m lower upper vars coefs).1 = none ∧
    (lower.isInf = true → upper.isInf = true →
      (Model_AddConstraint m lower upper vars coefs).2 = m) ∧
    (lower.isInf = true → upper.isInf = false →
      Model_ConstraintCount (Model_AddConstraint m lower upper vars coefs).2 =
        Model_ConstraintCount m + 1) ∧
    (lower.isInf = false → upper.isInf = true →
      Model_ConstraintCount (Model_AddConstraint m lower upper vars coefs).2 =
        Model_ConstraintCount m + 1) ∧
    (∀ q : ℚ, lower = .fin q → upper = .fin q →
      Model_ConstraintCount (Model_AddConstraint m lower upper vars coefs).2 =
        Model_ConstraintCount m + 1) ∧
    (∀ q r : ℚ, lower = .fin q → upper = .fin r → q < r →
      (Model_AddConstraint m lower upper vars coefs).2.rows =
        m.rows ++
          [⟨.le, .fin r, (vars.zip coefs).map (fun vc => (vc.1.index + 1, vc.2))⟩,
           ⟨.ge, .fin q, (vars.zip coefs).map (fun vc => (vc.1.index + 1, vc.2))⟩] ∧
      Model_ConstraintCount (Model_AddConstraint m lower upper vars coefs).2 =
        Model_ConstraintCount m + 2) := by
  refine ⟨?_, ?_, ?_, ?_, ?_, ?_⟩
  · rcases hl : lower.isInf <;> rcases hu : upper.isInf <;>
      by_cases he : upper = lower <;>
      simp [Model_AddConstraint, h, hl, hu, he]
  · intro hl hu
    simp [Model_AddConstraint, h, hl, hu]
  · intro hl hu
    simp [Model_AddConstraint, Model_ConstraintCount, lp_get_Nrows, lp_add_constraintex,
      h, hl, hu]
  · intro hl hu
    simp [Model_AddConstraint, Model_ConstraintCount, lp_get_Nrows, lp_add_constraintex,
      h, hl, hu]
  · intro q hql hqu
    subst hql; subst hqu
    simp [Model_AddConstraint, Model_ConstraintCount, lp_get_Nrows, lp_add_constraintex,
      h, GoFloat.isInf]
  · intro q r hql hqu hlt
    subst hql; subst hqu
    constructor
    · simp [Model_AddConstraint, lp_add_constraintex, h, GoFloat.isInf, hlt.ne']
    · simp [Model_AddConstraint, Model_ConstraintCount, lp_get_Nrows, lp_add_constraintex,
        h, GoFloat.isInf, hlt.ne']

/-- C10 witness: a double-bounded constraint on a fresh model adds two rows;
a half-bounded one adds one; an unconstrained one adds none. -/
theorem addConstraint_row_delta_witness :
    (Model_AddConstraint (Model_NewModel "w" true) (.fin 0) (.fin 1) [⟨0⟩] [.fin 1]).1 =
      none ∧
    Model_ConstraintCount
      (Model_AddConstraint (Model_NewModel "w" true) (.fin 0) (.fin 1) [⟨0⟩] [.fin 1]).2 = 2 ∧
    Model_ConstraintCount
      (Model_AddConstraint (Model_NewModel "w" true) .negInf (.fin 1) [⟨0⟩] [.fin 1]).2 = 1 ∧
    (Model_AddConstraint (Model_NewModel "w" true) .negInf .posInf [⟨0⟩] [.fin 1]).2 =
      Model_NewModel "w" true := by
  have h1 := addConstraint_row_delta (Model_NewModel "w" true) (.fin 0) (.fin 1)
    [⟨0⟩] [.fin 1] rfl
  have h2 := addConstraint_row_delta (Model_NewModel "w" true) .negInf (.fin 1)
    [⟨0⟩] [.fin 1] rfl
  have h3 := addConstraint_row_delta (Model_NewModel "w" true) .negInf .posInf
    [⟨0⟩] [.fin 1] rfl
  refine ⟨h1.1, ?_, h2.2.2.1 rfl rfl, h3.2.1 rfl rfl⟩
  have := (h1.2.2.2.2.2 0 1 rfl rfl (by norm_num)).2
  simpa [Model_ConstraintCount, lp_get_Nrows, Model_NewModel] using this

/-! ### Claims C5 and C9: `SolveWithContext`. -/

/-- Helper: the process-wide state after `SolveWithContext` returns, on
every path — the registry has gained the context entry and the abort
callback has been cleared by the deferred `put_abortfunc(nil, nil)`. -/
theorem solveWithContext_state (st : CancelState) (ctx : GoContext) (ret : Int) :
    (Model_SolveWithContext st ctx ret).2 =
      { refsSt := (saveRef st.refsSt (.ctxRef ctx)).2, abortfunc := none } := by
  unfold Model_SolveWithContext
  cases Model_Solve ret with
  | success s => rfl
  | failure c => by_cases hc : c = ErrUserAbort <;> simp [hc]
  | panics => rfl

/-- C5: `SolveWithContext` forwards `Solve()`'s outcome unchanged — same
status on the success tier, same typed error on the failure tier, the panic
propagated — except that a `ErrUserAbort` typed error is replaced by the
context's own `ctx.Err()` reason; and on every one of these paths, the
panic path included, the abort-callback installation is torn down before
returning. -/
theorem solveWithContext_dispatch (st : CancelState) (ctx : GoContext) (ret : Int) :
    (Model_SolveWithContext st ctx ret).2.abortfunc = none ∧
    (∀ s, Model_Solve ret = .success s →
      (Model_SolveWithContext st ctx ret).1 = .ret (some s) none) ∧
    (∀ c, Model_Solve ret = .failure c → c ≠ ErrUserAbort →
      (Model_SolveWithContext st ctx ret).1 = .ret none (some (.solveErr c))) ∧
    (Model_Solve ret = .failure ErrUserAbort →
      (Model_SolveWithContext st ctx ret).1 = .ret none (ctx.err.map GoErr.contextErr)) ∧
    (Model_Solve ret = .panics → (Model_SolveWithContext st ctx ret).1 = .panicked) := by
  refine ⟨by rw [solveWithContext_state], ?_, ?_, ?_, ?_⟩
  · intro s hs
    simp [Model_SolveWithContext, hs]
  · intro c hc hne
    simp [Model_SolveWithContext, hc, hne]
  · intro hu
    simp [Model_SolveWithContext, hu]
  · intro hp
    simp [Model_SolveWithContext, hp]

/-- C5 witness: a deadline-exceeded context and a `USERABORT` return code —
the caller sees the context's reason, not the backend abort code, and the
callback is gone; an `OPTIMAL` code passes through untouched. -/
theorem solveWithContext_dispatch_witness :
    (Model_SolveWithContext ⟨⟨0, []⟩, none⟩ ⟨some .deadlineExceeded⟩ USERABORT).1 =
      .ret none (some (.contextErr .deadlineExceeded)) ∧
    (Model_SolveWithContext ⟨⟨0, []⟩, none⟩ ⟨some .deadlineExceeded⟩ USERABORT).2.abortfunc =
      none ∧
    (Model_SolveWithContext ⟨⟨0, []⟩, none⟩ ⟨none⟩ OPTIMAL).1 = .ret (some OPTIMAL) none := by
  have h1 := solveWithContext_dispatch ⟨⟨0, []⟩, none⟩ ⟨some .deadlineExceeded⟩ USERABORT
  have h2 := solveWithContext_dispatch ⟨⟨0, []⟩, none⟩ ⟨none⟩ OPTIMAL
  exact ⟨by simpa using h1.2.2.2.1 (by decide), h1.1, h2.2.1 OPTIMAL (by decide)⟩

/-- C9 counterexample: after `SolveWithContext` returns, the registry entry
created by `saveRef` for the context is still in the process-wide table —
src/context.go defines no removal operation — contradicting the claim that
no registration persists after the call returns. -/
theorem refs_entry_persists_cex :
    (Model_SolveWithContext ⟨⟨0, []⟩, none⟩ ⟨none⟩ OPTIMAL).2.refsSt.refs =
      [(0, .ctxRef ⟨none⟩)] ∧
    (Model_SolveWithContext ⟨⟨0, []⟩, none⟩ ⟨none⟩ OPTIMAL).2.refsSt.refs ≠ [] := by
  decide

/-- C9 (amended): every `SolveWithContext` call appends the context's entry
to the process-wide handle registry and never removes it — the entry
outlives the call (an unbounded leak); only the abort-callback installation
itself is torn down. -/
theorem refs_entry_persists (st : CancelState) (ctx : GoContext) (ret : Int) :
    (Model_SolveWithContext st ctx ret).2.refsSt.refs =
      st.refsSt.refs ++ [(st.refsSt.nextPtr, .ctxRef ctx)] ∧
    (Model_SolveWithContext st ctx ret).2.abortfunc = none := by
  rw [solveWithContext_state]
  exact ⟨rfl, rfl⟩

/-! ### Claim C4: result-index arithmetic. -/

/-- C4: `PrimalValue` and `DualValue` query the solver's flat result space
at `v.index + ConstraintCount() + 1`, and the constraint-count offset is
read from the model at query time: adding a (half-bounded) constraint after
the variable exists shifts the queried index by the number of rows added. -/
theorem result_index_offset (m : LPModel) (sol dsol : Nat → GoFloat) (v : GoVariable) :
    SolveResult_PrimalValue m sol v = sol (v.index + Model_ConstraintCount m + 1) ∧
    SolveResult_DualValue m dsol v = dsol (v.index + Model_ConstraintCount m + 1) ∧
    (∀ (q : ℚ) (vars : List GoVariable) (coefs : List GoFloat),
      vars.length = coefs.length →
      SolveResult_PrimalValue (Model_AddConstraint m .negInf (.fin q) vars coefs).2 sol v =
        sol (v.index + Model_ConstraintCount m + 2)) := by
  refine ⟨rfl, rfl, ?_⟩
  intro q vars coefs h
  have hidx : v.index + (m.rows.length + 1) + 1 = v.index + m.rows.length + 2 := by omega
  simp only [SolveResult_PrimalValue, lp_get_var_primalresult, Model_AddConstraint,
    Model_ConstraintCount, lp_get_Nrows, lp_add_constraintex, GoFloat.isInf, h]
  simp [hidx]

/-- C4 witness: on a fresh model with no rows the primal query index of the
variable with index 0 is 1; after one half-bounded constraint it is 2. -/
theorem result_index_offset_witness :
    SolveResult_PrimalValue (Model_NewModel "w" true) (fun i => .fin i) ⟨0⟩ = .fin 1 ∧
    SolveResult_PrimalValue
      (Model_AddConstraint (Model_NewModel "w" true) .negInf (.fin 1) [⟨0⟩] [.fin 1]).2
      (fun i => .fin i) ⟨0⟩ = .fin 2 := by
  have h := result_index_offset (Model_NewModel "w" true) (fun i => .fin i)
    (fun i => .fin i) ⟨0⟩
  refine ⟨?_, ?_⟩
  · simpa [Model_NewModel, Model_ConstraintCount, lp_get_Nrows] using h.1
  · simpa [Model_NewModel, Model_ConstraintCount, lp_get_Nrows] using
      h.2.2 1 [⟨0⟩] [.fin 1] rfl

/-! ### Claim C7: `SetObjectiveFunction` and array-length mismatches. -/

/-- Statement apparatus for C7: set each listed variable's objective
coefficient from the pairwise-zipped lists (truncating at the shorter). -/
def applyCoefs (m : LPModel) (coefs : List GoFloat) (vars : List GoVariable) : LPModel :=
  (vars.zip coefs).foldl (fun acc vc => Variable_SetObjectiveCoefficient acc vc.1 vc.2) m

theorem applyCoefs_cons (m : LPModel) (c : GoFloat) (cs : List GoFloat)
    (v : GoVariable) (vs : List GoVariable) :
    applyCoefs m (c :: cs) (v :: vs) =
      applyCoefs (Variable_SetObjectiveCoefficient m v c) cs vs := rfl

/-- Concrete model for the C7 counterexample: a fresh model with one
continuous variable `x`. -/
def sofModel : LPModel :=
  (Model_AddDefinedVariable (Model_NewModel "test" true) "x" .continuousVariable
    (.fin 1) (.fin 0) (.fin 1)).1

/-- C7 counterexample: with one variable and zero coefficients
`SetObjectiveFunction` does not return a validation error — it panics with
an index-out-of-range; and with two coefficients against one variable it
returns nil while mutating the variable's coefficient.  Both concrete
inputs contradict the claimed validate-and-leave-unchanged behavior. -/
theorem setObjectiveFunction_no_validation_cex :
    Model_SetObjectiveFunction sofModel [] [⟨0⟩] = .panicked sofModel ∧
    Model_SetObjectiveFunction sofModel [.fin 2, .fin 3] [⟨0⟩] =
      .ret none (Variable_SetObjectiveCoefficient sofModel ⟨0⟩ (.fin 2)) ∧
    Variable_SetObjectiveCoefficient sofModel ⟨0⟩ (.fin 2) ≠ sofModel := by
  decide

/-- C7 (amended): `SetObjectiveFunction` performs no length validation.  It
walks `vars`, setting each coefficient from `coefs[i]`: when the variable
list is no longer than the coefficient list it returns nil after applying
all pairs (extra coefficients ignored); when the coefficient list is
shorter it panics on the first missing index, the earlier coefficients
already applied. -/
theorem setObjectiveFunction_behavior (m : LPModel) (coefs : List GoFloat)
    (vars : List GoVariable) :
    (vars.length ≤ coefs.length →
      Model_SetObjectiveFunction m coefs vars = .ret none (applyCoefs m coefs vars)) ∧
    (coefs.length < vars.length →
      Model_SetObjectiveFunction m coefs vars = .panicked (applyCoefs m coefs vars)) := by
  induction vars generalizing m coefs with
  | nil =>
      refine ⟨fun _ => ?_, fun h => absurd h (by simp)⟩
      cases coefs <;> rfl
  | cons v vs ih =>
      cases coefs with
      | nil =>
          refine ⟨fun h => absurd h (by simp), fun _ => ?_⟩
          rfl
      | cons c cs =>
          constructor
          · intro h
            have hh : vs.length ≤ cs.length := by simpa using h
            have := (ih (Variable_SetObjectiveCoefficient m v c) cs).1 hh
            simpa [Model_SetObjectiveFunction, setObjectiveLoop, applyCoefs_cons] using this
          · intro h
            have hh : cs.length < vs.length := by simpa using h
            have := (ih (Variable_SetObjectiveCoefficient m v c) cs).2 hh
            simpa [Model_SetObjectiveFunction, setObjectiveLoop, applyCoefs_cons] using this

/-- C7 witness: the amended behavior on a fresh model, with matching lengths
(nil return) and with a missing coefficient (panic). -/
theorem setObjectiveFunction_behavior_witness :
    Model_SetObjectiveFunction (Model_NewModel "w" true) [.fin 2] [⟨0⟩] =
      .ret none (applyCoefs (Model_NewModel "w" true) [.fin 2] [⟨0⟩]) ∧
    Model_SetObjectiveFunction (Model_NewModel "w" true) [] [⟨0⟩] =
      .panicked (applyCoefs (Model_NewModel "w" true) [] [⟨0⟩]) :=
  ⟨(setObjectiveFunction_behavior (Model_NewModel "w" true) [.fin 2] [⟨0⟩]).1 (by decide),
   (setObjectiveFunction_behavior (Model_NewModel "w" true) [] [⟨0⟩]).2 (by decide)⟩

/-! ### Claim C3: `AddDefinedVariable` round-trip. -/

/-- C3: an added variable reports the requested kind, coefficient and bounds
— the bounds with the sign of any requested infinity normalized to the
matching side — except that a binary variable reports bounds `(0, 1)`
whatever bounds were requested. -/
theorem addDefinedVariable_roundtrip (m : LPModel) (name : String) (kind : VariableType)
    (coef lower upper : GoFloat) :
    Variable_Type (Model_AddDefinedVariable m name kind coef lower upper).1
        (Model_AddDefinedVariable m name kind coef lower upper).2 = kind ∧
    Variable_Coefficient (Model_AddDefinedVariable m name kind coef lower upper).1
        (Model_AddDefinedVariable m name kind coef lower upper).2 = coef ∧
    Variable_Bounds (Model_AddDefinedVariable m name kind coef lower upper).1
        (Model_AddDefinedVariable m name kind coef lower upper).2 =
      (if kind = .binaryVariable then (.fin 0, .fin 1)
       else ((if lower.isInf then .negInf else lower),
             (if upper.isInf then .posInf else upper))) := by
  have hlt : m.cols.length < (m.cols ++ [defaultCol]).length := by simp
  cases kind with
  | binaryVariable =>
      refine ⟨?_, ?_, ?_⟩ <;>
        simp [Model_AddDefinedVariable, Model_VariableCount, lp_get_Ncolumns,
          Variable_SetType, lp_set_binary, Variable_SetObjectiveCoefficient, lp_set_mat0,
          Variable_Type, Variable_Coefficient, Variable_Bounds, lp_is_binary, lp_is_int,
          lp_get_mat0, lp_get_lowbo, lp_get_upbo, lp_add_columnex, lp_set_col_name,
          colAt, updColAt, listUpd_length, getD_listUpd_self, getD_append_length, hlt]
  | continuousVariable =>
      rcases hl : lower.isInf <;> rcases hu : upper.isInf <;>
        refine ⟨?_, ?_, ?_⟩ <;>
        simp [Model_AddDefinedVariable, Model_VariableCount, lp_get_Ncolumns,
          Variable_SetType, lp_set_int, Variable_SetObjectiveCoefficient, lp_set_mat0,
          Variable_SetBounds, lp_set_unbounded, lp_set_upbo, lp_set_lowbo, lp_set_bounds,
          Variable_Type, Variable_Coefficient, Variable_Bounds, lp_is_binary, lp_is_int,
          lp_get_mat0, lp_get_lowbo, lp_get_upbo, lp_add_columnex, lp_set_col_name,
          colAt, updColAt, listUpd_length, getD_listUpd_self, getD_append_length,
          hl, hu, hlt] <;>
        first
        | rfl
        | (cases lower <;> simp_all [GoFloat.isInf])
  | integerVariable =>
      rcases hl : lower.isInf <;> rcases hu : upper.isInf <;>
        refine ⟨?_, ?_, ?_⟩ <;>
        simp [Model_AddDefinedVariable, Model_VariableCount, lp_get_Ncolumns,
          Variable_SetType, lp_set_int, Variable_SetObjectiveCoefficient, lp_set_mat0,
          Variable_SetBounds, lp_set_unbounded, lp_set_upbo, lp_set_lowbo, lp_set_bounds,
          Variable_Type, Variable_Coefficient, Variable_Bounds, lp_is_binary, lp_is_int,
          lp_get_mat0, lp_get_lowbo, lp_get_upbo, lp_add_columnex, lp_set_col_name,
          colAt, updColAt, listUpd_length, getD_listUpd_self, getD_append_length,
          hl, hu, hlt] <;>
        first
        | rfl
        | (cases lower <;> simp_all [GoFloat.isInf])

/-! ### Claim C8: the variable-index invariant over all reachable states. -/

theorem setType_shape (m : LPModel) (v : GoVariable) (t : VariableType) :
    (Variable_SetType m v t).cols.length = m.cols.length ∧
    (Variable_SetType m v t).vars = m.vars := by
  cases t <;>
    simp [Variable_SetType, lp_set_int, lp_set_binary, updColAt, listUpd_length]

theorem setBounds_shape (m : LPModel) (v : GoVariable) (lower upper : GoFloat) :
    (Variable_SetBounds m v lower upper).cols.length = m.cols.length ∧
    (Variable_SetBounds m v lower upper).vars = m.vars := by
  unfold Variable_SetBounds
  split_ifs <;>
    simp [lp_set_unbounded, lp_set_upbo, lp_set_lowbo, lp_set_bounds, updColAt,
      listUpd_length]

theorem setObjCoef_shape (m : LPModel) (v : GoVariable) (c : GoFloat) :
    (Variable_SetObjectiveCoefficient m v c).cols.length = m.cols.length ∧
    (Variable_SetObjectiveCoefficient m v c).vars = m.vars := by
  simp [Variable_SetObjectiveCoefficient, lp_set_mat0, updColAt, listUpd_length]

theorem addDefinedVariable_shape (m : LPModel) (name : String) (kind : VariableType)
    (coef lower upper : GoFloat) :
    (Model_AddDefinedVariable m name kind coef lower upper).1.cols.length =
      m.cols.length + 1 ∧
    (Model_AddDefinedVariable m name kind coef lower upper).1.vars =
      m.vars ++ [⟨m.cols.length⟩] ∧
    (Model_AddDefinedVariable m name kind coef lower upper).2 = ⟨m.cols.length⟩ := by
  cases kind with
  | binaryVariable =>
      refine ⟨?_, ?_, rfl⟩ <;>
        simp [Model_AddDefinedVariable, Model_VariableCount, lp_get_Ncolumns,
          Variable_SetType, lp_set_binary, Variable_SetObjectiveCoefficient, lp_set_mat0,
          lp_add_columnex, lp_set_col_name, updColAt, listUpd_length]
  | continuousVariable =>
      refine ⟨?_, ?_, rfl⟩ <;>
        rcases hl : lower.isInf <;> rcases hu : upper.isInf <;>
        simp [Model_AddDefinedVariable, Model_VariableCount, lp_get_Ncolumns,
          Variable_SetType, lp_set_int, Variable_SetObjectiveCoefficient, lp_set_mat0,
          Variable_SetBounds, lp_set_unbounded, lp_set_upbo, lp_set_lowbo, lp_set_bounds,
          lp_add_columnex, lp_set_col_name, updColAt, listUpd_length, hl, hu]
  | integerVariable =>
      refine ⟨?_, ?_, rfl⟩ <;>
        rcases hl : lower.isInf <;> rcases hu : upper.isInf <;>
        simp [Model_AddDefinedVariable, Model_VariableCount, lp_get_Ncolumns,
          Variable_SetType, lp_set_int, Variable_SetObjectiveCoefficient, lp_set_mat0,
          Variable_SetBounds, lp_set_unbounded, lp_set_upbo, lp_set_lowbo, lp_set_bounds,
          lp_add_columnex, lp_set_col_name, updColAt, listUpd_length, hl, hu]

theorem addConstraint_shape (m : LPModel) (lower upper : GoFloat)
    (vars : List GoVariable) (coefs : List GoFloat) :
    (Model_AddConstraint m lower upper vars coefs).2.cols = m.cols ∧
    (Model_AddConstraint m lower upper vars coefs).2.vars = m.vars := by
  unfold Model_AddConstraint
  split_ifs <;> simp [lp_add_constraintex]

theorem setObjectiveLoop_ret_shape (vs : List GoVariable) :
    ∀ (m : LPModel) (cs : List GoFloat) (e : Option GolpaErr) (msol : LPModel),
      setObjectiveLoop m cs vs = .ret e msol →
      msol.cols.length = m.cols.length ∧ msol.vars = m.vars := by
  induction vs with
  | nil =>
      intro m cs e msol h
      cases cs <;> (simp [setObjectiveLoop] at h; simp [h.2.symm])
  | cons v vs ih =>
      intro m cs e msol h
      cases cs with
      | nil => simp [setObjectiveLoop] at h
      | cons c cs =>
          simp only [setObjectiveLoop] at h
          have hr := ih (Variable_SetObjectiveCoefficient m v c) cs e msol h
          have hs := setObjCoef_shape m v c
          exact ⟨hr.1.trans hs.1, hr.2.trans hs.2⟩

theorem clone_vars (m : LPModel) : (Model_Clone m).vars = m.vars := by
  have hid : (fun v : GoVariable => ({ index := v.index } : GoVariable)) = id := by
    funext v; cases v; rfl
  simp [Model_Clone, hid]

/-- The model states reachable by a sequence of successful wrapper
operations, starting from `NewModel`. -/
inductive Reachable : LPModel → Prop where
  | newModel (name : String) (maximize : Bool) : Reachable (Model_NewModel name maximize)
  | addDefinedVariable (m : LPModel) (name : String) (kind : VariableType)
      (coef lower upper : GoFloat) : Reachable m →
      Reachable (Model_AddDefinedVariable m name kind coef lower upper).1
  | addConstraint (m : LPModel) (lower upper : GoFloat) (vars : List GoVariable)
      (coefs : List GoFloat) : Reachable m →
      Reachable (Model_AddConstraint m lower upper vars coefs).2
  | setObjectiveFunction (m : LPModel) (coefs : List GoFloat) (vars : List GoVariable)
      (e : Option GolpaErr) (msol : LPModel) : Reachable m →
      Model_SetObjectiveFunction m coefs vars = .ret e msol → Reachable msol
  | setBounds (m : LPModel) (v : GoVariable) (lower upper : GoFloat) : Reachable m →
      Reachable (Variable_SetBounds m v lower upper)
  | setType (m : LPModel) (v : GoVariable) (t : VariableType) : Reachable m →
      Reachable (Variable_SetType m v t)
  | setObjectiveCoefficient (m : LPModel) (v : GoVariable) (c : GoFloat) : Reachable m →
      Reachable (Variable_SetObjectiveCoefficient m v c)
  | setDirection (m : LPModel) (d : Bool) : Reachable m →
      Reachable (Model_SetDirection m d)
  | clone (m : LPModel) : Reachable m → Reachable (Model_Clone m)

theorem invariant_transfer (m msol : LPModel) (hc : msol.cols.length = m.cols.length)
    (hv : msol.vars = m.vars) (h1 : Model_VariableCount m = m.vars.length)
    (h2 : ∀ i, i < m.vars.length → (listGetD m.vars i ⟨0⟩).index = i) :
    Model_VariableCount msol = msol.vars.length ∧
    (∀ i, i < msol.vars.length → (listGetD msol.vars i ⟨0⟩).index = i) := by
  simp only [Model_VariableCount, lp_get_Ncolumns] at h1 ⊢
  rw [hc, hv]
  exact ⟨h1, h2⟩

/-- C8: in every reachable model state the solver-reported column count
equals the number of variables added; the `i`-th variable added carries
index `i` (indices are unique, contiguous and fixed at creation); and
`Clone` reproduces the variable list index-for-index. -/
theorem variable_index_invariant (m : LPModel) (h : Reachable m) :
    Model_VariableCount m = m.vars.length ∧
    (∀ i, i < m.vars.length → (listGetD m.vars i ⟨0⟩).index = i) ∧
    (Model_Clone m).vars = m.vars := by
  induction h with
  | newModel name maximize =>
      refine ⟨rfl, ?_, clone_vars _⟩
      intro i hi
      simp [Model_NewModel] at hi
  | addDefinedVariable m name kind coef lower upper hm ih =>
      obtain ⟨hcount, hidx, _⟩ := ih
      have hs := addDefinedVariable_shape m name kind coef lower upper
      refine ⟨?_, ?_, clone_vars _⟩
      · simp only [Model_VariableCount, lp_get_Ncolumns] at hcount ⊢
        rw [hs.1, hs.2.1]
        simp [hcount]
      · intro i hi
        rw [hs.2.1] at hi ⊢
        simp only [List.length_append, List.length_cons, List.length_nil] at hi
        rcases Nat.lt_or_ge i m.vars.length with hlt | hge
        · rw [getD_append_lt _ _ _ _ hlt]
          exact hidx i hlt
        · have hieq : i = m.vars.length := by omega
          subst hieq
          rw [getD_append_length]
          simp only [Model_VariableCount, lp_get_Ncolumns] at hcount
          simpa using hcount
  | addConstraint m lower upper vars coefs hm ih =>
      obtain ⟨hcount, hidx, _⟩ := ih
      have hs := addConstraint_shape m lower upper vars coefs
      have ht := invariant_transfer m _ (by rw [hs.1]) hs.2 hcount hidx
      exact ⟨ht.1, ht.2, clone_vars _⟩
  | setObjectiveFunction m coefs vars e msol hm heq ih =>
      obtain ⟨hcount, hidx, _⟩ := ih
      have hs := setObjectiveLoop_ret_shape vars m coefs e msol heq
      have ht := invariant_transfer m msol hs.1 hs.2 hcount hidx
      exact ⟨ht.1, ht.2, clone_vars _⟩
  | setBounds m v lower upper hm ih =>
      obtain ⟨hcount, hidx, _⟩ := ih
      have hs := setBounds_shape m v lower upper
      have ht := invariant_transfer m _ hs.1 hs.2 hcount hidx
      exact ⟨ht.1, ht.2, clone_vars _⟩
  | setType m v t hm ih =>
      obtain ⟨hcount, hidx, _⟩ := ih
      have hs := setType_shape m v t
      have ht := invariant_transfer m _ hs.1 hs.2 hcount hidx
      exact ⟨ht.1, ht.2, clone_vars _⟩
  | setObjectiveCoefficient m v c hm ih =>
      obtain ⟨hcount, hidx, _⟩ := ih
      have hs := setObjCoef_shape m v c
      have ht := invariant_transfer m _ hs.1 hs.2 hcount hidx
      exact ⟨ht.1, ht.2, clone_vars _⟩
  | setDirection m d hm ih =>
      obtain ⟨hcount, hidx, _⟩ := ih
      have ht := invariant_transfer m (Model_SetDirection m d) rfl rfl hcount hidx
      exact ⟨ht.1, ht.2, clone_vars _⟩
  | clone m hm ih =>
      obtain ⟨hcount, hidx, _⟩ := ih
      have ht := invariant_transfer m (Model_Clone m) rfl (clone_vars m) hcount hidx
      exact ⟨ht.1, ht.2, clone_vars _⟩

/-- Concrete reachable state for the C8 witness: a fresh model with one
default continuous variable. -/
def w8 : LPModel :=
  (Model_AddDefinedVariable (Model_NewModel "w" true) "x" .continuousVariable
    (.fin 1) .negInf .posInf).1

/-- C8 witness: the invariant at a concrete reachable state. -/
theorem variable_index_invariant_witness :
    Model_VariableCount w8 = w8.vars.length ∧
    (listGetD w8.vars 0 ⟨0⟩).index = 0 ∧
    (Model_Clone w8).vars = w8.vars := by
  have hr : Reachable w8 :=
    Reachable.addDefinedVariable (Model_NewModel "w" true) "x" .continuousVariable
      (.fin 1) .negInf .posInf (Reachable.newModel "w" true)
  have h := variable_index_invariant w8 hr
  exact ⟨h.1, h.2.1 0 (by decide), h.2.2⟩

end Golpa
